import Mathlib

/-!
Shallow embedding of the `sheet-mail-scrubber` email-verification engine.

The embedding covers the two edge-function variants of the repository:

* `supabase/functions/verify-emails/index.ts` — the SMTP-probing variant
  (`performSMTPCheck`, `DomainConcurrencyLimiter`, `verifyEmail`, the batch
  loop in `serve`), embedded below with an `Ix` suffix on the orchestrator;
* the scoring variant (`calculateSMTPScore`, threshold status derivation,
  `verifyEmail`), embedded with a `P0` suffix.

Network effects (DNS-over-HTTPS answers, SMTP session transcripts) are
supplied as explicit environment values, and the network calls a run would
perform are recorded as an event trace, so that properties such as
"no SMTP probe is attempted" become statements about the trace.
-/

/-! ### String primitives

JavaScript string operations used by the source, modelled on `List Char`
so that every definition reduces in the kernel. -/

/-- One step of character-separated splitting; mirrors JS `String.split(sep)`
for a single-character separator. `acc` holds the current chunk reversed. -/
def splitOnCharAux (sep : Char) : List Char → List Char → List (List Char)
  | [], acc => [acc.reverse]
  | c :: cs, acc =>
    if c = sep then acc.reverse :: splitOnCharAux sep cs []
    else splitOnCharAux sep cs (c :: acc)

/-- JS `s.split(sep)` for a one-character separator. -/
def splitOnChar (sep : Char) (s : String) : List String :=
  (splitOnCharAux sep s.data []).map String.mk

/-- Substring test on character lists (JS `String.includes`). -/
def listContainsSub (needle : List Char) : List Char → Bool
  | [] => needle.isEmpty
  | c :: cs => needle.isPrefixOf (c :: cs) || listContainsSub needle cs

/-- JS `hay.includes(needle)`. -/
def strContains (hay needle : String) : Bool :=
  listContainsSub needle.data hay.data

/-- JS `s.toLowerCase()` (the source only compares ASCII text). -/
def strToLower (s : String) : String :=
  ⟨s.data.map Char.toLower⟩

/-- JS `s.trim()`. -/
def strTrim (s : String) : String :=
  ⟨((s.data.dropWhile Char.isWhitespace).reverse.dropWhile Char.isWhitespace).reverse⟩

/-- JS `s.substring(0, n)`. -/
def strTake (n : Nat) (s : String) : String :=
  ⟨s.data.take n⟩

/-- JS `suf` is a suffix of `s` (used to model the `$`-anchored regexes). -/
def strEndsWith (s suf : String) : Bool :=
  suf.data.isSuffixOf s.data

/-- Decimal value of a digit list, most significant digit first. -/
def digitsToNatAux : Nat → List Char → Nat
  | acc, [] => acc
  | acc, c :: cs => digitsToNatAux (acc * 10 + (c.toNat - 48)) cs

/-- Parse a leading run of decimal digits; `none` when there is none. -/
def jsParseDigits (cs : List Char) : Option Nat :=
  let ds := cs.takeWhile Char.isDigit
  if ds.isEmpty then none else some (digitsToNatAux 0 ds)

/-- JS `parseInt(s)` restricted to decimal inputs: skip leading whitespace,
an optional sign, then a leading digit run; `none` models `NaN`.
(The `0x` hexadecimal prefix of `parseInt` is not modelled; the source only
applies `parseInt` to SMTP reply-code prefixes and DNS priority fields.) -/
def jsParseInt (s : String) : Option Int :=
  match s.data.dropWhile Char.isWhitespace with
  | '-' :: rest => (jsParseDigits rest).map (fun n => -(n : Int))
  | '+' :: rest => (jsParseDigits rest).map (fun n => (n : Int))
  | t => (jsParseDigits t).map (fun n => (n : Int))

/-! ### Syntax validation and static classifiers
(`validateEmailSyntax`, `extractDomain`, and the lookup-set classifiers;
identical in both variants of the source). -/

/-- Characters admitted by the local-part class of the source's email regex:
letters, digits, and `. ! # $ % & ' * + / = ? ^ _ \x60 \x7b | \x7d ~ -`
(listed here by code point). -/
def isLocalChar (c : Char) : Bool :=
  c.isAlphanum ||
    [33, 35, 36, 37, 38, 39, 42, 43, 45, 46, 47,
     61, 63, 94, 95, 96, 123, 124, 125, 126].contains c.toNat

/-- One domain label of the source's email regex:
`[a-zA-Z0-9](?:[a-zA-Z0-9-]\x7b0,61\x7d[a-zA-Z0-9])?` — equivalently a
nonempty alphanumeric-or-hyphen string of length at most 63 whose first and
last characters are alphanumeric. -/
def isDomainLabel (s : List Char) : Bool :=
  match s, s.getLast? with
  | c :: _, some d =>
    s.length ≤ 63 && c.isAlphanum && d.isAlphanum &&
      s.all (fun x => x.isAlphanum || x = '-')
  | _, _ => false

/-- Source `validateEmailSyntax` — the anchored email regex of the source: a
nonempty local part over `isLocalChar`, one `@`, then dot-separated domain
labels. Neither character class contains `@`, so the regex forces exactly
one `@`; neither contains `.` in the domain, so labels are the
dot-separated chunks. -/
def validateEmailSyntax (email : String) : Bool :=
  match splitOnChar '@' email with
  | [localPart, domainPart] =>
    !localPart.data.isEmpty && localPart.data.all isLocalChar &&
      (splitOnChar '.' domainPart).all (fun l => isDomainLabel l.data)
  | _ => false

/-- Source `extractDomain` — JS `email.split('@')[1]` (the empty string models
`undefined`; the orchestrators only call this after the syntax check). -/
def extractDomain (email : String) : String :=
  (splitOnChar '@' email).getD 1 ""

/-- JS `email.split('@')[0]`. -/
def localPartOf (email : String) : String :=
  (splitOnChar '@' email).getD 0 ""

def disposableDomains : List String :=
  ["tempmail.com", "guerrillamail.com", "10minutemail.com", "throwaway.email",
   "mailinator.com", "temp-mail.org", "getnada.com", "maildrop.cc",
   "sharklasers.com", "guerrillamail.info", "grr.la", "guerrillamail.biz",
   "spam4.me", "yopmail.com", "trashmail.com", "mintemail.com"]

/-- Source `isDisposableEmail`. -/
def isDisposableEmail (domain : String) : Bool :=
  disposableDomains.contains (strToLower domain)

def rolePrefixes : List String :=
  ["admin", "info", "support", "sales", "contact", "help", "webmaster",
   "noreply", "no-reply", "postmaster", "hostmaster", "service", "marketing",
   "billing", "abuse", "security", "privacy", "legal", "team"]

/-- Source `isRoleBasedEmail`. -/
def isRoleBasedEmail (email : String) : Bool :=
  let localPart := strToLower (localPartOf email)
  rolePrefixes.any (fun p =>
    localPart = p || (p ++ ".").data.isPrefixOf localPart.data)

def freeProviders : List String :=
  ["gmail.com", "yahoo.com", "hotmail.com", "outlook.com", "aol.com",
   "icloud.com", "mail.com", "protonmail.com", "zoho.com", "gmx.com",
   "yandex.com", "live.com", "msn.com", "inbox.com", "fastmail.com"]

/-- Source `isFreeProvider`. -/
def isFreeProvider (domain : String) : Bool :=
  freeProviders.contains (strToLower domain)

def spamTrapDomains : List String :=
  ["spamtrap.com", "honeypot.com", "blackhole.com", "sink.com",
   "spamcop.net", "deadletter.com"]

def spamTrapPatterns : List String :=
  ["spam", "trap", "honeypot", "blackhole", "sink", "abuse-",
   "spamtrap", "deadletter", "devnull"]

/-- Source `isSpamTrap`. -/
def isSpamTrap (email : String) : Bool :=
  let domain := extractDomain email
  let localPart := strToLower (localPartOf email)
  spamTrapDomains.contains (strToLower domain) ||
    spamTrapPatterns.any (fun p => strContains localPart p)

def abuseDomains : List String :=
  ["complainbot.com", "abuseme.com", "spamreport.net"]

def abusePatterns : List String :=
  ["complaint", "report-spam", "abuse-report", "spam-report"]

/-- Source `isAbuseEmail`. -/
def isAbuseEmail (email : String) : Bool :=
  let domain := extractDomain email
  let localPart := strToLower (localPartOf email)
  abuseDomains.contains (strToLower domain) ||
    abusePatterns.any (fun p => strContains localPart p)

def toxicPatterns : List String :=
  ["bounce", "unsubscribe", "optout", "opt-out", "remove",
   "donotmail", "do-not-mail", "suppress", "block", "blacklist"]

def suppressionDomains : List String :=
  ["donotmail.com", "suppression.net", "blacklist.com"]

/-- Source `isToxicEmail`. -/
def isToxicEmail (email : String) : Bool :=
  let domain := extractDomain email
  let localPart := strToLower (localPartOf email)
  suppressionDomains.contains (strToLower domain) ||
    toxicPatterns.any (fun p => strContains localPart p)

/-! ### Configuration (`SMTP_CONFIG` of `index.ts`) -/

structure SmtpConfigT where
  TIMEOUT_MS : Nat
  MAX_RETRIES : Nat
  BATCH_SIZE : Nat
  MAX_WORKERS : Int
  MAX_CONCURRENT_PER_DOMAIN : Int
  VERIFY_EMAIL : String

def SMTP_CONFIG : SmtpConfigT :=
  { TIMEOUT_MS := 5000
    MAX_RETRIES := 1
    BATCH_SIZE := 50
    MAX_WORKERS := 200
    MAX_CONCURRENT_PER_DOMAIN := 5
    VERIFY_EMAIL := "verify@emailverifier.dev" }

/-! ### DNS resolver adapter (`getMXRecords`)

A DNS-over-HTTPS answer is consumed as
`\x7bStatus: integer, Answer?: [\x7bdata: string\x7d]\x7d`; each MX `data`
field is parsed as `"<priority> <exchange>."`. -/

structure DnsAnswer where
  data : String
deriving DecidableEq, Repr

structure DnsResponse where
  status : Int
  answer : Option (List DnsAnswer)
deriving DecidableEq, Repr

structure MXRecord where
  priority : Int
  exchange : String
deriving DecidableEq, Repr

/-- JS `s.replace(/\.$/, '')` — strip a single trailing dot. -/
def stripTrailingDot (s : String) : String :=
  match s.data.getLast? with
  | some c => if c = '.' then ⟨s.data.dropLast⟩ else s
  | none => s

/-- Parse one MX `data` field, `"<priority> <exchange>"`.
`none` models the paths on which the source's record mapper fails:
a missing second token makes the JS `.replace` call throw (caught by
`getMXRecords`, which then returns `[]`), and a non-numeric first token is
approximated the same way (in JS it would yield a `NaN` priority). -/
def parseMXData (data : String) : Option MXRecord :=
  match splitOnChar ' ' data with
  | p0 :: p1 :: _ =>
    match jsParseInt p0 with
    | some pr => some { priority := pr, exchange := stripTrailingDot p1 }
    | none => none
  | _ => none

/-- Parse every answer record, failing if any record fails. -/
def parseMXAnswers : List DnsAnswer → Option (List MXRecord)
  | [] => some []
  | a :: rest =>
    match parseMXData a.data, parseMXAnswers rest with
    | some r, some rs => some (r :: rs)
    | _, _ => none

/-- Insert into a priority-sorted list, keeping earlier records first among
equal priorities (JS `Array.prototype.sort` is stable). -/
def insertMX (r : MXRecord) : List MXRecord → List MXRecord
  | [] => [r]
  | x :: xs => if r.priority ≤ x.priority then r :: x :: xs else x :: insertMX r xs

/-- The source's `.sort((a, b) => a.priority - b.priority)`. -/
def sortByPriority : List MXRecord → List MXRecord
  | [] => []
  | r :: rs => insertMX r (sortByPriority rs)

/-- Source `getMXRecords` — on resolver status ≠ 0, a missing or empty answer, or a
parse failure (the catch path), return `[]`; otherwise the parsed records
sorted ascending by priority. -/
def getMXRecords (resp : DnsResponse) : List MXRecord :=
  if resp.status ≠ 0 then []
  else
    match resp.answer with
    | none => []
    | some ans =>
      if ans.length = 0 then []
      else
        match parseMXAnswers ans with
        | some recs => sortByPriority recs
        | none => []

/-! ### SMTP probe (`performSMTPCheck`) -/

inductive SmtpStatus where
  | valid
  | invalid
  | temp_error
  | unknown
  | catch_all
deriving DecidableEq, Repr

/-- The source type `EmailVerificationResult['smtp_details']`. The reply `code` is an
`Option Int`, `none` standing for JS `NaN` (an unparsable reply prefix). -/
structure SmtpDetails where
  mx : String
  code : Option Int
  message : String
  tls : Bool
  latency_ms : Int
  status : SmtpStatus
deriving DecidableEq, Repr

/-- The source expression `parseInt(reply.substring(0, 3))`. -/
def replyCodeOf (reply : String) : Option Int :=
  jsParseInt (strTake 3 reply)

/-- Reply code in `[lo, hi)`; false for `NaN`. -/
def replyCodeIn (reply : String) (lo hi : Int) : Bool :=
  match replyCodeOf reply with
  | some c => lo ≤ c && c < hi
  | none => false

/-- The RCPT TO classification chain of `performSMTPCheck` (the
`let status ... if/else` block): 250/251 → valid; 5xx → invalid;
4xx → temp_error; else reply text containing `catch` or `accept all`
(case-insensitive) → catch_all; else unknown. -/
def rcptClassify (rcptResponse : String) : SmtpStatus :=
  if replyCodeOf rcptResponse = some 250 || replyCodeOf rcptResponse = some 251 then
    .valid
  else if replyCodeIn rcptResponse 500 600 then
    .invalid
  else if replyCodeIn rcptResponse 400 500 then
    .temp_error
  else if strContains (strToLower rcptResponse) "catch" ||
      strContains (strToLower rcptResponse) "accept all" then
    .catch_all
  else
    .unknown

/-- Outcome of one SMTP session attempt, as observed by `performSMTPCheck`:
either some awaited step threw (connect timeout/refusal, read/write failure)
with the given error message, or the session completed and produced the
four reply strings. `latencyMs` is the elapsed time at return. -/
inductive SessionOutcome where
  | thrown (message : String) (latencyMs : Int)
  | completed (greeting ehlo mailFrom rcpt : String) (latencyMs : Int)
deriving DecidableEq, Repr

/-- Events of a probe run: one `attempt` per connection attempt, and the
backoff sleeps (in milliseconds) between retries. -/
inductive ProbeEvent where
  | attempt
  | backoffMs (ms : Nat)
deriving DecidableEq, Repr

/-- Source `performSMTPCheck email mx retryCount`, driven by `session`, which gives
the outcome of the attempt made at each `retryCount`. Returns the
`smtp_details` value together with the probe's event trace. -/
def performSMTPCheck (session : Nat → SessionOutcome) (email mx : String)
    (retryCount : Nat) : SmtpDetails × List ProbeEvent :=
  match session retryCount with
  | .thrown msg lat =>
    if h : retryCount < SMTP_CONFIG.MAX_RETRIES ∧ strContains msg "timeout" = false then
      let rest := performSMTPCheck session email mx (retryCount + 1)
      (rest.1, .attempt :: .backoffMs (2 ^ retryCount * 1000) :: rest.2)
    else
      ({ mx, code := some 0, message := msg, tls := false,
         latency_ms := lat, status := .unknown }, [.attempt])
  | .completed greeting ehlo mailFrom rcpt lat =>
    if replyCodeOf greeting ≠ some 220 then
      ({ mx, code := replyCodeOf greeting, message := strTrim greeting, tls := false,
         latency_ms := lat, status := .unknown }, [.attempt])
    else
      let tlsEnabled := strContains ehlo "STARTTLS"
      if replyCodeOf mailFrom ≠ some 250 then
        ({ mx, code := replyCodeOf mailFrom, message := strTrim mailFrom, tls := tlsEnabled,
           latency_ms := lat, status := .unknown }, [.attempt])
      else
        if h : rcptClassify rcpt = .temp_error ∧ retryCount < SMTP_CONFIG.MAX_RETRIES then
          let rest := performSMTPCheck session email mx (retryCount + 1)
          (rest.1, .attempt :: .backoffMs (2 ^ retryCount * 1000) :: rest.2)
        else
          ({ mx, code := replyCodeOf rcpt, message := strTrim rcpt, tls := tlsEnabled,
             latency_ms := lat, status := rcptClassify rcpt }, [.attempt])
termination_by SMTP_CONFIG.MAX_RETRIES + 1 - retryCount
decreasing_by
  · omega
  · omega

/-! ### Domain concurrency limiter (`DomainConcurrencyLimiter`)

`domainQueues` is the JS `Map<string, number>` as an association list
(`get(d) || 0` reads 0 for an absent key; `set` replaces in place).
`acquire` spins until both counters are under their caps and then
increments both in the same microtask, so a completed acquire is an atomic
guarded increment; `release` decrements both, each floored at zero. -/

def mapGet (m : List (String × Int)) (d : String) : Int :=
  match m with
  | [] => 0
  | (k, v) :: rest => if k = d then v else mapGet rest d

def mapSet (m : List (String × Int)) (d : String) (v : Int) : List (String × Int) :=
  match m with
  | [] => [(d, v)]
  | (k, w) :: rest => if k = d then (d, v) :: rest else (k, w) :: mapSet rest d v

structure LimiterState where
  domainQueues : List (String × Int)
  globalActive : Int
deriving DecidableEq, Repr

def initLimiter : LimiterState := { domainQueues := [], globalActive := 0 }

inductive LimiterOp where
  | acquire (domain : String)
  | release (domain : String)
deriving DecidableEq, Repr

/-- One completed limiter operation. An `acquire` completes only when its
spin-wait guard is false (`none` models an acquire that is still blocked,
which therefore never appears in a trace of completed operations). -/
def limiterStep (s : LimiterState) : LimiterOp → Option LimiterState
  | .acquire domain =>
    if s.globalActive ≥ SMTP_CONFIG.MAX_WORKERS ||
        mapGet s.domainQueues domain ≥ SMTP_CONFIG.MAX_CONCURRENT_PER_DOMAIN then
      none
    else
      some { domainQueues := mapSet s.domainQueues domain (mapGet s.domainQueues domain + 1),
             globalActive := s.globalActive + 1 }
  | .release domain =>
    let current := mapGet s.domainQueues domain
    let dq := if current > 0 then mapSet s.domainQueues domain (current - 1)
              else s.domainQueues
    let g := if s.globalActive > 0 then s.globalActive - 1 else s.globalActive
    some { domainQueues := dq, globalActive := g }

/-- Run a sequence of completed limiter operations. -/
def runLimiter (s : LimiterState) : List LimiterOp → Option LimiterState
  | [] => some s
  | op :: ops =>
    match limiterStep s op with
    | some s2 => runLimiter s2 ops
    | none => none

/-! ### Orchestrator, SMTP-probing variant (`verifyEmail` of `index.ts`) -/

inductive CanSend where
  | yes
  | no
deriving DecidableEq, Repr

/-- The `EmailVerificationResult` interface of `index.ts`. -/
structure EmailVerificationResult where
  email : String
  can_send : CanSend
  syntax_valid : Bool
  dns_valid : Bool
  smtp_valid : Bool
  smtp_details : Option SmtpDetails
  dmarc_valid : Bool
  is_disposable : Bool
  is_role_based : Bool
  is_free_provider : Bool
  is_catch_all : Bool
  is_spam_trap : Bool
  is_abuse : Bool
  is_toxic : Bool
  error_message : Option String
deriving DecidableEq, Repr

/-- Network events of one verification run. -/
inductive NetEvent where
  | dnsMX
  | dnsDMARC
  | dnsA
  | dnsSPF
  | smtpProbe (mx : String)
  | limAcquire (domain : String)
  | limRelease (domain : String)
deriving DecidableEq, Repr

/-- Environment of one `index.ts` `verifyEmail` call: the resolver answer
for the domain's MX query, the DMARC flag computed by `checkDMARC`, and the
outcome of awaiting `performSMTPCheck` on the primary exchanger
(`Except.error` models the awaited promise rejecting). -/
structure VerifyEnvIx where
  mxResponse : DnsResponse
  dmarc : Bool
  probe : Except String SmtpDetails
deriving Repr

/-- The `verifyEmail` function of `index.ts`: syntax check, static classifier flags,
parallel MX + DMARC lookups, early return when no MX records, then the
limiter-guarded SMTP probe (acquire / try / finally release), the outer
catch capturing a thrown probe into `error_message`, and the final
`can_send` cascade. Returns the result and the network-event trace. -/
def verifyEmailIx (email : String) (env : VerifyEnvIx) (limiterPresent : Bool) :
    EmailVerificationResult × List NetEvent :=
  let base : EmailVerificationResult :=
    { email, can_send := .no, syntax_valid := false, dns_valid := false,
      smtp_valid := false, smtp_details := none, dmarc_valid := false,
      is_disposable := false, is_role_based := false, is_free_provider := false,
      is_catch_all := false, is_spam_trap := false, is_abuse := false,
      is_toxic := false, error_message := none }
  if !validateEmailSyntax email then
    ({ base with error_message := some "Invalid email syntax" }, [])
  else
    let domain := extractDomain email
    let r1 := { base with
      syntax_valid := true
      is_disposable := isDisposableEmail domain
      is_role_based := isRoleBasedEmail email
      is_free_provider := isFreeProvider domain
      is_spam_trap := isSpamTrap email
      is_abuse := isAbuseEmail email
      is_toxic := isToxicEmail email }
    let mxRecords := getMXRecords env.mxResponse
    let ev0 : List NetEvent := [.dnsMX, .dnsDMARC]
    let r2 := { r1 with
      dns_valid := decide (mxRecords.length > 0)
      dmarc_valid := env.dmarc }
    match mxRecords with
    | [] => ({ r2 with error_message := some "No valid MX records found" }, ev0)
    | mx0 :: _ =>
      let primaryMX := mx0.exchange
      let evAcq : List NetEvent := if limiterPresent then [.limAcquire domain] else []
      let evRel : List NetEvent := if limiterPresent then [.limRelease domain] else []
      let tr := ev0 ++ evAcq ++ [.smtpProbe primaryMX] ++ evRel
      match env.probe with
      | .error msg =>
        ({ r2 with error_message := some ("Verification error: " ++ msg) }, tr)
      | .ok details =>
        let r3 := { r2 with
          smtp_details := some details
          smtp_valid := decide (details.status = SmtpStatus.valid) ||
            decide (details.status = SmtpStatus.catch_all)
          is_catch_all := if details.status = SmtpStatus.catch_all then true
            else r2.is_catch_all }
        if !r3.smtp_valid && !(details.status = .temp_error) then
          let fallbackMsg :=
            if details.message = "" then "SMTP verification failed" else details.message
          ({ r3 with error_message := some fallbackMsg }, tr)
        else if r3.is_disposable then
          ({ r3 with
              can_send := .no
              error_message := some "Disposable/temporary email address" }, tr)
        else if r3.is_spam_trap then
          ({ r3 with
              can_send := .no
              error_message := some "Known spam trap address" }, tr)
        else if r3.is_abuse then
          ({ r3 with
              can_send := .no
              error_message := some "High-complaint/abuse address" }, tr)
        else if r3.is_toxic then
          ({ r3 with
              can_send := .no
              error_message := some "Toxic/suppression list address" }, tr)
        else if r3.syntax_valid && r3.dns_valid && r3.smtp_valid then
          ({ r3 with can_send := .yes }, tr)
        else
          (r3, tr)

/-- The batch loop of `serve`: slice the email list into `BATCH_SIZE`
groups, verify each group under the shared limiter, and concatenate the
per-group result arrays in order. -/
def processEmails (emails : List String) (envOf : String → VerifyEnvIx) :
    List EmailVerificationResult :=
  if h : emails = [] then []
  else
    let batch := emails.take SMTP_CONFIG.BATCH_SIZE
    let batchResults := batch.map (fun e => (verifyEmailIx e (envOf e) true).1)
    batchResults ++ processEmails (emails.drop SMTP_CONFIG.BATCH_SIZE) envOf
termination_by emails.length
decreasing_by
  simp only [List.length_drop]
  have hb : SMTP_CONFIG.BATCH_SIZE = 50 := rfl
  have hl : 0 < emails.length := List.length_pos.mpr h
  omega

/-! ### Orchestrator, scoring variant (`calculateSMTPScore` and
`verifyEmail` of the scoring edge function) -/

/-- Source `KNOWN_MX_PATTERNS.valid` — the case-insensitive `$`-anchored regexes,
as suffix tests on an already-lowercased exchanger hostname
(`google(mail)?\.com$` contributes the two suffixes). -/
def knownMXValidSuffixes : List String :=
  ["google.com", "googlemail.com", "outlook.com", "hotmail.com", "yahoo.com",
   "mail.protection.outlook.com", "aspmx.l.google.com", "mx.zoho.com",
   "mail.protonmail.ch"]

/-- Source `KNOWN_MX_PATTERNS.suspicious` — unanchored, so substring tests. -/
def knownMXSuspiciousSubstrings : List String :=
  ["localhost", "example.com", "test.com"]

/-- Source `KNOWN_MX_PATTERNS.valid.some(p => p.test(primaryMX))` on a lowercased
exchanger. -/
def mxPatternValid (mx : String) : Bool :=
  knownMXValidSuffixes.any (fun suf => strEndsWith mx suf)

/-- Source `KNOWN_MX_PATTERNS.suspicious.some(p => p.test(primaryMX))`. -/
def mxPatternSuspicious (mx : String) : Bool :=
  knownMXSuspiciousSubstrings.any (fun sub => strContains mx sub)

/-- Source `calculateSMTPScore` — the sequential `score += ...` chain followed by
`Math.max(0, Math.min(100, score))`. (The source's first parameter
`domain` is unused there and is omitted here.) -/
def calculateSMTPScore (mxRecords : List MXRecord)
    (hasSPF hasDMARC domainExists isDisposable isRole isCatchAll : Bool) : Int :=
  let score : Int := 0
  let score := score + (if domainExists then 20 else 0)
  let score :=
    match mxRecords with
    | [] => score
    | r0 :: _ =>
      let score := score + 30
      let primaryMX := strToLower r0.exchange
      let score := score + (if mxPatternValid primaryMX then 15 else 0)
      let score := score - (if mxPatternSuspicious primaryMX then 30 else 0)
      score + (if mxRecords.length > 1 then 5 else 0)
  let score := score + (if hasSPF then 10 else 0)
  let score := score + (if hasDMARC then 10 else 0)
  let score := score - (if isDisposable then 40 else 0)
  let score := score - (if isRole then 10 else 0)
  let score := score - (if isCatchAll then 15 else 0)
  max 0 (min 100 score)

inductive P0Status where
  | valid
  | invalid
  | risky
  | unknown
deriving DecidableEq, Repr

/-- The score-threshold cascade of the scoring variant's `verifyEmail`:
`≥ 90 → valid`, `≥ 60 → risky`, `≥ 30 → unknown`, else `invalid`. -/
def statusFromScore (score : Int) : P0Status :=
  if score ≥ 90 then .valid
  else if score ≥ 60 then .risky
  else if score ≥ 30 then .unknown
  else .invalid

/-- The `isCatchAllDomain` function of the scoring variant — a pure heuristic over the
resolved MX records: a single MX record with priority ≤ 10 is taken as
catch-all; every other shape yields false. -/
def isCatchAllDomainP0 (mxRecords : List MXRecord) : Bool :=
  match mxRecords with
  | [r0] => if r0.priority ≤ 10 then true else false
  | _ => false

/-- The `EmailVerificationResult` interface of the scoring variant. -/
structure P0Result where
  email : String
  syntax_valid : Bool
  domain_exists : Bool
  mx_found : Bool
  dmarc_valid : Bool
  disposable : Bool
  role_account : Bool
  catch_all : Bool
  smtp_score : Int
  status : P0Status
  error_message : Option String
deriving DecidableEq, Repr

/-- Environment of one scoring-variant `verifyEmail` call: the outcomes of
the four parallel DNS lookups (A record, MX, SPF, DMARC). -/
structure VerifyEnvP0 where
  domainExists : Bool
  mxResponse : DnsResponse
  spf : Bool
  dmarc : Bool
deriving Repr

/-- The `verifyEmail` function of the scoring variant: syntax check, instant classifier
checks with the spam-trap/abuse/toxic auto-fail short-circuit (before any
network call), the four parallel DNS lookups, catch-all heuristic, score,
and the threshold status. Returns the result and the network-event trace. -/
def verifyEmailP0 (email : String) (env : VerifyEnvP0) :
    P0Result × List NetEvent :=
  let base : P0Result :=
    { email, syntax_valid := false, domain_exists := false, mx_found := false,
      dmarc_valid := false, disposable := false, role_account := false,
      catch_all := false, smtp_score := 0, status := .unknown,
      error_message := none }
  if !validateEmailSyntax email then
    ({ base with
        error_message := some "Invalid email syntax"
        status := .invalid }, [])
  else
    let domain := extractDomain email
    let r1 := { base with
      syntax_valid := true
      disposable := isDisposableEmail domain
      role_account := isRoleBasedEmail email }
    if isSpamTrap email || isAbuseEmail email || isToxicEmail email then
      ({ r1 with
          status := .invalid
          error_message := some "Known bad address" }, [])
    else
      let ev : List NetEvent := [.dnsA, .dnsMX, .dnsSPF, .dnsDMARC]
      let mxRecords := getMXRecords env.mxResponse
      let catchAll := isCatchAllDomainP0 mxRecords
      let score := calculateSMTPScore mxRecords env.spf env.dmarc
        env.domainExists r1.disposable r1.role_account catchAll
      ({ r1 with
          domain_exists := env.domainExists
          mx_found := decide (mxRecords.length > 0)
          dmarc_valid := env.dmarc
          catch_all := catchAll
          smtp_score := score
          status := statusFromScore score }, ev)

/-! ### Derived observation functions and concrete test environments -/

/-- Limiter events of a trace. -/
def isLimiterEvent : NetEvent → Bool
  | .limAcquire _ => true
  | .limRelease _ => true
  | _ => false

/-- Number of connection attempts recorded in a probe trace. -/
def countAttempts : List ProbeEvent → Nat
  | [] => 0
  | .attempt :: es => countAttempts es + 1
  | _ :: es => countAttempts es

/-- Spec-side restatement of the scoring rule, for comparison with
`calculateSMTPScore`. Modelled from the spec: "start at 0; +20 domain
exists; +30 MX present (+15 more if the primary exchanger hostname matches
a known-legitimate provider pattern, −30 if it matches a known-suspicious
pattern, +5 if more than one MX record exists); +10 SPF; +10 DMARC;
−40 disposable; −10 role account; −15 catch-all; clamp to [0,100]". -/
def scoreSpecFormula (mxRecords : List MXRecord)
    (hasSPF hasDMARC domainExists isDisposable isRole isCatchAll : Bool) : Int :=
  let mxPart : Int :=
    match mxRecords with
    | [] => 0
    | r0 :: _ =>
      30 + (if mxPatternValid (strToLower r0.exchange) then 15 else 0) +
        (if mxPatternSuspicious (strToLower r0.exchange) then -30 else 0) +
        (if 1 < mxRecords.length then 5 else 0)
  max 0 (min 100 ((if domainExists then 20 else 0) + mxPart +
    (if hasSPF then 10 else 0) + (if hasDMARC then 10 else 0) -
    (if isDisposable then 40 else 0) - (if isRole then 10 else 0) -
    (if isCatchAll then 15 else 0)))

/-- The invariant of the domain concurrency limiter: every per-domain
in-flight counter lies in `[0, MAX_CONCURRENT_PER_DOMAIN]` and the global
counter lies in `[0, MAX_WORKERS]`. -/
def limiterInv (s : LimiterState) : Prop :=
  (∀ d, 0 ≤ mapGet s.domainQueues d ∧
    mapGet s.domainQueues d ≤ SMTP_CONFIG.MAX_CONCURRENT_PER_DOMAIN) ∧
  0 ≤ s.globalActive ∧ s.globalActive ≤ SMTP_CONFIG.MAX_WORKERS

/-- A resolver answer with two MX records, for concrete runs. -/
def wMXResponse : DnsResponse :=
  { status := 0
    answer := some [⟨"20 mx2.b.com."⟩, ⟨"10 mx1.b.com."⟩] }

/-- A successful-probe environment for concrete runs of `verifyEmailIx`. -/
def wEnvOk : VerifyEnvIx :=
  { mxResponse := wMXResponse
    dmarc := true
    probe := .ok { mx := "mx1.b.com", code := some 250, message := "250 ok",
                   tls := true, latency_ms := 42, status := .valid } }

/-- A rejected-probe environment (the awaited `performSMTPCheck` promise
rejecting) for concrete runs of `verifyEmailIx`. -/
def wEnvThrow : VerifyEnvIx :=
  { mxResponse := wMXResponse
    dmarc := false
    probe := .error "boom" }

/-- An environment whose MX lookup yields no records. -/
def wEnvNoMX : VerifyEnvIx :=
  { mxResponse := { status := 3, answer := none }
    dmarc := false
    probe := .error "unreachable" }

/-- A session oracle whose every attempt completes with a 550 RCPT reply. -/
def wSession550 : Nat → SessionOutcome :=
  fun _ => .completed "220 hello" "250-STARTTLS" "250 ok" "550 no mailbox" 3

/-- A session oracle whose every attempt fails with a connection refusal. -/
def wSessionRefused : Nat → SessionOutcome :=
  fun _ => .thrown "connection refused" 12

/-- A scoring-variant environment for concrete runs. -/
def wEnvP0 : VerifyEnvP0 :=
  { domainExists := true
    mxResponse := wMXResponse
    spf := true
    dmarc := true }

/-! ## Theorems -/

/-! ### C2 — limiter counters stay within their caps -/

theorem mapGet_mapSet (m : List (String × Int)) (d d2 : String) (v : Int) :
    mapGet (mapSet m d v) d2 = if d = d2 then v else mapGet m d2 := by
  induction m with
  | nil => simp [mapSet, mapGet]
  | cons p rest ih =>
    obtain ⟨k, w⟩ := p
    by_cases h1 : k = d
    · subst h1
      by_cases h2 : k = d2 <;> simp [mapSet, mapGet, h2]
    · by_cases h2 : k = d2
      · subst h2
        have h3 : ¬ d = k := fun h => h1 h.symm
        simp [mapSet, mapGet, h1, h3]
      · simp [mapSet, mapGet, h1, h2, ih]

theorem limiterStep_inv (s s2 : LimiterState) (op : LimiterOp)
    (hInv : limiterInv s) (h : limiterStep s op = some s2) : limiterInv s2 := by
  obtain ⟨hdq, hg0, hg1⟩ := hInv
  cases op with
  | acquire domain =>
    simp only [limiterStep] at h
    split at h
    · exact absurd h (by simp)
    · rename_i hguard
      rw [Bool.or_eq_true, not_or] at hguard
      obtain ⟨hgw, hgd⟩ := hguard
      simp only [decide_eq_true_eq] at hgw hgd
      rw [Option.some.injEq] at h
      subst h
      refine ⟨fun d => ?_, ?_, ?_⟩
      · dsimp only
        rw [mapGet_mapSet]
        by_cases hd : domain = d
        · subst hd
          simp only [if_pos rfl]
          have := (hdq domain).1
          omega
        · simp only [if_neg hd]
          exact hdq d
      · dsimp only
        omega
      · dsimp only
        omega
  | release domain =>
    simp only [limiterStep, Option.some.injEq] at h
    subst h
    refine ⟨fun d => ?_, ?_, ?_⟩
    · dsimp only
      split
      · rename_i hpos
        rw [mapGet_mapSet]
        by_cases hd : domain = d
        · subst hd
          simp only [if_pos rfl]
          have := hdq domain
          omega
        · simp only [if_neg hd]
          exact hdq d
      · exact hdq d
    · dsimp only
      split <;> omega
    · dsimp only
      split <;> omega

theorem runLimiter_inv (ops : List LimiterOp) :
    ∀ s s2, limiterInv s → runLimiter s ops = some s2 → limiterInv s2 := by
  induction ops with
  | nil =>
    intro s s2 hInv h
    simp [runLimiter] at h
    exact h ▸ hInv
  | cons op rest ih =>
    intro s s2 hInv h
    simp only [runLimiter] at h
    cases hstep : limiterStep s op with
    | none => rw [hstep] at h; exact absurd h (by simp)
    | some s1 =>
      rw [hstep] at h
      exact ih s1 s2 (limiterStep_inv s s1 op hInv hstep) h

/-- C2: for every interleaved sequence of completed `acquire`/`release`
operations starting from a fresh `DomainConcurrencyLimiter`, each
per-domain in-flight counter stays in `[0, 5]` and the global counter
stays in `[0, 200]`; in particular no counter ever becomes negative. -/
theorem limiter_counters_bounded (ops : List LimiterOp) (s : LimiterState)
    (h : runLimiter initLimiter ops = some s) :
    (∀ d, 0 ≤ mapGet s.domainQueues d ∧
      mapGet s.domainQueues d ≤ SMTP_CONFIG.MAX_CONCURRENT_PER_DOMAIN) ∧
    0 ≤ s.globalActive ∧ s.globalActive ≤ SMTP_CONFIG.MAX_WORKERS := by
  have hInit : limiterInv initLimiter := by
    refine ⟨fun d => ?_, by simp [initLimiter], by simp [initLimiter, SMTP_CONFIG]⟩
    simp [initLimiter, mapGet, SMTP_CONFIG]
  exact runLimiter_inv ops initLimiter s hInit h

/-- Witness for C2 at a concrete trace: two acquires and one release on
`example.com` leave that domain's counter at 1 and the global counter at 1,
both within their caps. -/
theorem limiter_counters_bounded_witness :
    0 ≤ mapGet (LimiterState.mk [("example.com", 1)] 1).domainQueues "example.com" ∧
    mapGet (LimiterState.mk [("example.com", 1)] 1).domainQueues "example.com" ≤
      SMTP_CONFIG.MAX_CONCURRENT_PER_DOMAIN ∧
    0 ≤ (LimiterState.mk [("example.com", 1)] 1).globalActive ∧
    (LimiterState.mk [("example.com", 1)] 1).globalActive ≤ SMTP_CONFIG.MAX_WORKERS := by
  have h := limiter_counters_bounded
    [.acquire "example.com", .acquire "example.com", .release "example.com"]
    (LimiterState.mk [("example.com", 1)] 1) (by decide)
  exact ⟨(h.1 "example.com").1, (h.1 "example.com").2, h.2.1, h.2.2⟩

/-! ### C3 — every completed acquire is matched by exactly one release -/

/-- C3: in a `verifyEmail` run with the limiter present, whenever
`acquire(domain)` completes (appears in the trace), the limiter events of
the whole run are exactly one acquire followed by one release of the same
domain — on every exit path of the probe, including a throwing
`performSMTPCheck`; and for every domain the number of releases equals the
number of acquires. -/
theorem acquire_release_paired (email : String) (env : VerifyEnvIx) :
    (NetEvent.limAcquire (extractDomain email) ∈ (verifyEmailIx email env true).2 →
      (verifyEmailIx email env true).2.filter isLimiterEvent =
        [NetEvent.limAcquire (extractDomain email),
         NetEvent.limRelease (extractDomain email)]) ∧
    (∀ d : String, (verifyEmailIx email env true).2.count (NetEvent.limAcquire d) =
      (verifyEmailIx email env true).2.count (NetEvent.limRelease d)) := by
  by_cases hs : validateEmailSyntax email
  · cases hmx : getMXRecords env.mxResponse with
    | nil =>
      simp [verifyEmailIx, hs, hmx, isLimiterEvent, List.count_cons]
    | cons mx0 rest =>
      cases hp : env.probe with
      | error msg =>
        simp [verifyEmailIx, hs, hmx, hp, isLimiterEvent, List.count_cons]
      | ok details =>
        simp [verifyEmailIx, hs, hmx, hp, isLimiterEvent, List.count_cons,
          apply_ite Prod.snd]
  · simp [verifyEmailIx, hs]

/-- Witness for C3 at a concrete run (successful probe on `a@b.com`). -/
theorem acquire_release_paired_witness :
    (verifyEmailIx "a@b.com" wEnvOk true).2.filter isLimiterEvent =
      [NetEvent.limAcquire (extractDomain "a@b.com"),
       NetEvent.limRelease (extractDomain "a@b.com")] :=
  (acquire_release_paired "a@b.com" wEnvOk).1 (by decide)

/-! ### C5 — no MX records: dns_valid is false and no SMTP probe -/

/-- C5: whenever the domain's MX lookup yields no records, `verifyEmail`
returns `dns_valid = false` with an error message, and its trace contains
no SMTP probe event. -/
theorem no_mx_no_smtp_probe (email : String) (env : VerifyEnvIx) (lim : Bool)
    (h : getMXRecords env.mxResponse = []) :
    (verifyEmailIx email env lim).1.dns_valid = false ∧
    (verifyEmailIx email env lim).1.error_message.isSome = true ∧
    ∀ mx, NetEvent.smtpProbe mx ∉ (verifyEmailIx email env lim).2 := by
  by_cases hs : validateEmailSyntax email
  · simp [verifyEmailIx, hs, h]
  · simp [verifyEmailIx, hs]

/-- Witness for C5 at a concrete run (resolver status 3, no answer). -/
theorem no_mx_no_smtp_probe_witness :
    (verifyEmailIx "a@b.com" wEnvNoMX true).1.dns_valid = false ∧
    (verifyEmailIx "a@b.com" wEnvNoMX true).1.error_message.isSome = true ∧
    ∀ mx, NetEvent.smtpProbe mx ∉ (verifyEmailIx "a@b.com" wEnvNoMX true).2 :=
  no_mx_no_smtp_probe "a@b.com" wEnvNoMX true (by decide)

/-! ### C4 — spam-trap / abuse / toxic addresses -/

/-- Counterexample to C4 as stated: in the SMTP-probing variant, a
syntactically valid spam-trap address still triggers the DNS lookups and
the SMTP probe (the classifier flags do not short-circuit there). -/
theorem bad_address_network_cex :
    validateEmailSyntax "spam@gmail.com" = true ∧
    isSpamTrap "spam@gmail.com" = true ∧
    NetEvent.dnsMX ∈ (verifyEmailIx "spam@gmail.com" wEnvOk true).2 ∧
    NetEvent.smtpProbe "mx1.b.com" ∈ (verifyEmailIx "spam@gmail.com" wEnvOk true).2 := by
  decide

/-- C4 amended: a syntactically valid address classified spam-trap, abuse,
or toxic gets an invalid verdict in both variants — in the scoring variant
with `status = invalid` and no network call at all; in the SMTP-probing
variant with `can_send = no`, though that variant still performs its DNS
lookups (and, when MX records exist, the SMTP probe). -/
theorem bad_address_handling (email : String)
    (hsyn : validateEmailSyntax email = true)
    (hbad : isSpamTrap email = true ∨ isAbuseEmail email = true ∨
      isToxicEmail email = true) :
    (∀ env : VerifyEnvP0,
      (verifyEmailP0 email env).1.status = P0Status.invalid ∧
      (verifyEmailP0 email env).2 = []) ∧
    (∀ (env : VerifyEnvIx) (lim : Bool),
      (verifyEmailIx email env lim).1.can_send = CanSend.no) := by
  constructor
  · intro env
    have hb : (isSpamTrap email || isAbuseEmail email || isToxicEmail email) = true := by
      rcases hbad with h | h | h <;> simp [h]
    simp [verifyEmailP0, hsyn, hb]
  · intro env lim
    cases hmx : getMXRecords env.mxResponse with
    | nil => simp [verifyEmailIx, hsyn, hmx]
    | cons mx0 rest =>
      cases hp : env.probe with
      | error msg => simp [verifyEmailIx, hsyn, hmx, hp]
      | ok details =>
        simp [verifyEmailIx, hsyn, hmx, hp,
          apply_ite (fun p : EmailVerificationResult × List NetEvent => p.1.can_send)]
        intros
        rcases hbad with h | h | h <;> simp_all

/-- Witness for C4's amended statement at `spam@gmail.com`. -/
theorem bad_address_handling_witness :
    (verifyEmailP0 "spam@gmail.com" wEnvP0).1.status = P0Status.invalid ∧
    (verifyEmailP0 "spam@gmail.com" wEnvP0).2 = [] ∧
    (verifyEmailIx "spam@gmail.com" wEnvOk true).1.can_send = CanSend.no := by
  have h := bad_address_handling "spam@gmail.com" (by decide) (Or.inl (by decide))
  exact ⟨(h.1 wEnvP0).1, (h.1 wEnvP0).2, h.2 wEnvOk true⟩

/-! ### C6 — MX records sorted by priority, dot-stripped, primary is the
minimum-priority exchanger -/

theorem insertMX_perm (r : MXRecord) (l : List MXRecord) :
    (insertMX r l).Perm (r :: l) := by
  induction l with
  | nil => simp [insertMX]
  | cons x xs ih =>
    simp only [insertMX]
    split
    · exact List.Perm.refl _
    · exact (ih.cons x).trans (List.Perm.swap r x xs)

theorem sortByPriority_perm (l : List MXRecord) : (sortByPriority l).Perm l := by
  induction l with
  | nil => simp [sortByPriority]
  | cons r rs ih =>
    exact (insertMX_perm r (sortByPriority rs)).trans (ih.cons r)

theorem insertMX_pairwise (r : MXRecord) (l : List MXRecord)
    (h : l.Pairwise (fun a b => a.priority ≤ b.priority)) :
    (insertMX r l).Pairwise (fun a b => a.priority ≤ b.priority) := by
  induction l with
  | nil => simp [insertMX]
  | cons x xs ih =>
    rw [List.pairwise_cons] at h
    simp only [insertMX]
    split
    · rename_i hle
      rw [List.pairwise_cons]
      refine ⟨?_, List.pairwise_cons.mpr h⟩
      intro b hb
      rcases List.mem_cons.mp hb with rfl | hmem
      · exact hle
      · exact le_trans hle (h.1 b hmem)
    · rename_i hgt
      rw [List.pairwise_cons]
      refine ⟨?_, ih h.2⟩
      intro b hb
      rcases List.mem_cons.mp ((insertMX_perm r xs).mem_iff.mp hb) with rfl | hmem
      · omega
      · exact h.1 b hmem

theorem sortByPriority_pairwise (l : List MXRecord) :
    (sortByPriority l).Pairwise (fun a b => a.priority ≤ b.priority) := by
  induction l with
  | nil => simp [sortByPriority]
  | cons r rs ih => exact insertMX_pairwise r (sortByPriority rs) ih

/-- C6: for every resolver answer that parses, `getMXRecords` returns
exactly the parsed records sorted ascending by priority; each record's
exchange is the answer's second token with a trailing root-zone dot
stripped; and whenever the result is nonempty, its head has minimum
priority and is the exchanger handed to the SMTP probe by `verifyEmail`. -/
theorem getMXRecords_sorted_primary_min
    (resp : DnsResponse) (ans : List DnsAnswer) (recs : List MXRecord)
    (h0 : resp.status = 0) (ha : resp.answer = some ans) (hne : ans ≠ [])
    (hp : parseMXAnswers ans = some recs) :
    getMXRecords resp = sortByPriority recs ∧
    (getMXRecords resp).Perm recs ∧
    (getMXRecords resp).Pairwise (fun a b => a.priority ≤ b.priority) ∧
    (∀ (d : String) (r : MXRecord), parseMXData d = some r →
      ∃ p0 p1 rest2, splitOnChar ' ' d = p0 :: p1 :: rest2 ∧
        jsParseInt p0 = some r.priority ∧ r.exchange = stripTrailingDot p1) ∧
    (∀ s : String, strEndsWith s "." = true →
      stripTrailingDot s = String.mk s.data.dropLast) ∧
    (∀ r0 rest, getMXRecords resp = r0 :: rest →
      (∀ r ∈ getMXRecords resp, r0.priority ≤ r.priority) ∧
      (∀ (email : String) (env : VerifyEnvIx) (lim : Bool),
        env.mxResponse = resp → validateEmailSyntax email = true →
        NetEvent.smtpProbe r0.exchange ∈ (verifyEmailIx email env lim).2)) := by
  have hget : getMXRecords resp = sortByPriority recs := by
    have hlen : ¬ ans.length = 0 := by
      simpa [List.length_eq_zero] using hne
    simp [getMXRecords, h0, ha, hp, hlen]
  refine ⟨hget, hget ▸ sortByPriority_perm recs, hget ▸ sortByPriority_pairwise recs,
    ?_, ?_, ?_⟩
  · intro d r hpr
    cases hsp : splitOnChar ' ' d with
    | nil => simp [parseMXData, hsp] at hpr
    | cons p0 tail =>
      cases tail with
      | nil => simp [parseMXData, hsp] at hpr
      | cons p1 rest2 =>
        simp only [parseMXData, hsp] at hpr
        cases hpi : jsParseInt p0 with
        | none => rw [hpi] at hpr; exact absurd hpr (by simp)
        | some pr =>
          rw [hpi] at hpr
          simp only [Option.some.injEq] at hpr
          subst hpr
          exact ⟨p0, p1, rest2, rfl, hpi, rfl⟩
  · intro s hdot
    have hsuf : ['.'] <:+ s.data :=
      List.isSuffixOf_iff_suffix.mp hdot
    obtain ⟨t, ht⟩ := hsuf
    have hlast : s.data.getLast? = some '.' := by
      rw [← ht]
      simp [List.getLast?_append]
    simp [stripTrailingDot, hlast]
  · intro r0 rest heq
    constructor
    · intro r hr
      rw [heq] at hr
      rcases List.mem_cons.mp hr with rfl | hmem
      · exact le_refl _
      · have hpw := hget ▸ sortByPriority_pairwise recs
        rw [heq, List.pairwise_cons] at hpw
        exact hpw.1 r hmem
    · intro email env lim henv hsyn
      have hmx : getMXRecords env.mxResponse = r0 :: rest := henv ▸ heq
      cases hp2 : env.probe <;>
        cases lim <;>
          simp [verifyEmailIx, hsyn, hmx, hp2, apply_ite Prod.snd]

/-- Witness for C6 at a concrete two-record resolver answer. -/
theorem getMXRecords_sorted_primary_min_witness :
    getMXRecords wMXResponse =
      sortByPriority [⟨20, "mx2.b.com"⟩, ⟨10, "mx1.b.com"⟩] :=
  (getMXRecords_sorted_primary_min wMXResponse
    [⟨"20 mx2.b.com."⟩, ⟨"10 mx1.b.com."⟩]
    [⟨20, "mx2.b.com"⟩, ⟨10, "mx1.b.com"⟩]
    rfl rfl (by decide) (by decide)).1

/-! ### C1 — RCPT TO reply classification -/

/-- Counterexample to C1 as stated: a 5xx reply whose text contains
"accept all" is classified `invalid`, not `catch_all` — the text override
fires only when the numeric code falls in none of the earlier branches. -/
theorem rcpt_catch_all_override_cex :
    strContains (strToLower "550 we accept all") "accept all" = true ∧
    rcptClassify "550 we accept all" = SmtpStatus.invalid ∧
    SmtpStatus.invalid ≠ SmtpStatus.catch_all := by
  decide

/-- C1 amended: when the session completes with a 220 greeting and a 250
MAIL FROM and the retry budget is exhausted, the probe's terminal status is
`rcptClassify` of the RCPT reply, which classifies: 250/251 → valid,
5xx → invalid, 4xx → temp_error, and only outside those code ranges a
reply text containing "catch" or "accept all" (case-insensitive) →
catch_all, anything else → unknown. -/
theorem rcpt_reply_classification (session : Nat → SessionOutcome)
    (email mx : String) (r : Nat) (g e m rcpt : String) (lat : Int)
    (hs : session r = .completed g e m rcpt lat)
    (hg : replyCodeOf g = some 220)
    (hm : replyCodeOf m = some 250)
    (hr : SMTP_CONFIG.MAX_RETRIES ≤ r) :
    (performSMTPCheck session email mx r).1.status = rcptClassify rcpt ∧
    (∀ (resp : String) (c : Int), replyCodeOf resp = some c →
      (c = 250 ∨ c = 251) → rcptClassify resp = .valid) ∧
    (∀ (resp : String) (c : Int), replyCodeOf resp = some c →
      500 ≤ c → c < 600 → rcptClassify resp = .invalid) ∧
    (∀ (resp : String) (c : Int), replyCodeOf resp = some c →
      400 ≤ c → c < 500 → rcptClassify resp = .temp_error) ∧
    (∀ resp : String,
      (∀ c : Int, replyCodeOf resp = some c →
        ¬(c = 250 ∨ c = 251) ∧ ¬(400 ≤ c ∧ c < 600)) →
      (strContains (strToLower resp) "catch" = true ∨
        strContains (strToLower resp) "accept all" = true) →
      rcptClassify resp = .catch_all) ∧
    (∀ resp : String,
      (∀ c : Int, replyCodeOf resp = some c →
        ¬(c = 250 ∨ c = 251) ∧ ¬(400 ≤ c ∧ c < 600)) →
      strContains (strToLower resp) "catch" = false →
      strContains (strToLower resp) "accept all" = false →
      rcptClassify resp = .unknown) := by
  have hnr : ¬ r < SMTP_CONFIG.MAX_RETRIES := by omega
  refine ⟨?_, ?_, ?_, ?_, ?_, ?_⟩
  · rw [performSMTPCheck, hs]
    simp [hg, hm, hnr]
  · intro resp c hc hval
    rcases hval with rfl | rfl <;> simp [rcptClassify, hc]
  · intro resp c hc h1 h2
    simp only [rcptClassify, replyCodeIn, hc]
    split_ifs <;> simp_all <;> omega
  · intro resp c hc h1 h2
    simp only [rcptClassify, replyCodeIn, hc]
    split_ifs <;> simp_all <;> omega
  · intro resp hcode htext
    simp only [rcptClassify, replyCodeIn]
    split_ifs with h1 h2 h3 h4
    · exfalso
      simp only [Bool.or_eq_true, decide_eq_true_eq] at h1
      rcases h1 with h1 | h1 <;> simpa using (hcode _ h1).1
    · exfalso
      cases hc : replyCodeOf resp with
      | none => rw [hc] at h2; simp at h2
      | some c =>
        rw [hc] at h2
        simp only [Bool.and_eq_true, decide_eq_true_eq] at h2
        have := (hcode c hc).2
        omega
    · exfalso
      cases hc : replyCodeOf resp with
      | none => rw [hc] at h3; simp at h3
      | some c =>
        rw [hc] at h3
        simp only [Bool.and_eq_true, decide_eq_true_eq] at h3
        have := (hcode c hc).2
        omega
    · rfl
    · exfalso
      simp only [Bool.or_eq_true, not_or] at h4
      rcases htext with ht | ht
      · exact h4.1 ht
      · exact h4.2 ht
  · intro resp hcode ht1 ht2
    simp only [rcptClassify, replyCodeIn]
    split_ifs with h1 h2 h3 h4
    · exfalso
      simp only [Bool.or_eq_true, decide_eq_true_eq] at h1
      rcases h1 with h1 | h1 <;> simpa using (hcode _ h1).1
    · exfalso
      cases hc : replyCodeOf resp with
      | none => rw [hc] at h2; simp at h2
      | some c =>
        rw [hc] at h2
        simp only [Bool.and_eq_true, decide_eq_true_eq] at h2
        have := (hcode c hc).2
        omega
    · exfalso
      cases hc : replyCodeOf resp with
      | none => rw [hc] at h3; simp at h3
      | some c =>
        rw [hc] at h3
        simp only [Bool.and_eq_true, decide_eq_true_eq] at h3
        have := (hcode c hc).2
        omega
    · exfalso
      simp [ht1, ht2] at h4
    · rfl

/-- Witness for C1's amended statement at a concrete exhausted-budget run
with a 550 RCPT reply. -/
theorem rcpt_reply_classification_witness :
    (performSMTPCheck wSession550 "u@d.com" "mx.d.com" 1).1.status =
      rcptClassify "550 no mailbox" :=
  (rcpt_reply_classification wSession550 "u@d.com" "mx.d.com" 1
    "220 hello" "250-STARTTLS" "250 ok" "550 no mailbox" 3
    rfl (by decide) (by decide) (by decide)).1

/-! ### C8 — connection-error retry policy -/

/-- C8: when an attempt's session throws, then — if the retry budget is not
exhausted and the error text does not contain "timeout" — the probe sleeps
`2 ^ attempt` seconds (recorded in milliseconds) and retries at
`retryCount + 1`; otherwise it returns a terminal attempt with status
`unknown`, reply code 0, the error text as message, and the elapsed
latency. -/
theorem connect_error_retry_policy (session : Nat → SessionOutcome)
    (email mx msg : String) (lat : Int) (r : Nat)
    (h : session r = .thrown msg lat) :
    (r < SMTP_CONFIG.MAX_RETRIES ∧ strContains msg "timeout" = false →
      performSMTPCheck session email mx r =
        ((performSMTPCheck session email mx (r + 1)).1,
         .attempt :: .backoffMs (2 ^ r * 1000) ::
           (performSMTPCheck session email mx (r + 1)).2)) ∧
    (SMTP_CONFIG.MAX_RETRIES ≤ r ∨ strContains msg "timeout" = true →
      performSMTPCheck session email mx r =
        ({ mx := mx, code := some 0, message := msg, tls := false,
           latency_ms := lat, status := .unknown }, [.attempt])) := by
  constructor
  · intro hcond
    rw [performSMTPCheck, h]
    simp [hcond]
  · intro hcond
    have hncond : ¬(r < SMTP_CONFIG.MAX_RETRIES ∧ strContains msg "timeout" = false) := by
      rcases hcond with hc | hc
      · intro hk
        omega
      · intro hk
        rw [hc] at hk
        exact absurd hk.2 (by simp)
    rw [performSMTPCheck, h]
    simp [hncond]

/-- Witness for C8 at a concrete refused connection: at `retryCount = 0`
the probe backs off one second and retries; at `retryCount = 1` (budget
exhausted) it terminates with status unknown and reply code 0. -/
theorem connect_error_retry_policy_witness :
    (performSMTPCheck wSessionRefused "u@d.com" "mx.d.com" 0 =
      ((performSMTPCheck wSessionRefused "u@d.com" "mx.d.com" 1).1,
       .attempt :: .backoffMs (2 ^ 0 * 1000) ::
         (performSMTPCheck wSessionRefused "u@d.com" "mx.d.com" 1).2)) ∧
    (performSMTPCheck wSessionRefused "u@d.com" "mx.d.com" 1 =
      ({ mx := "mx.d.com", code := some 0, message := "connection refused",
         tls := false, latency_ms := 12, status := .unknown }, [.attempt])) :=
  ⟨(connect_error_retry_policy wSessionRefused "u@d.com" "mx.d.com"
      "connection refused" 12 0 rfl).1 ⟨by decide, by decide⟩,
   (connect_error_retry_policy wSessionRefused "u@d.com" "mx.d.com"
      "connection refused" 12 1 rfl).2 (Or.inl (by decide))⟩

/-! ### C10 — the probe terminates within `MAX_RETRIES + 1` attempts -/

theorem countAttempts_performSMTPCheck (session : Nat → SessionOutcome)
    (email mx : String) :
    ∀ (k r : Nat), SMTP_CONFIG.MAX_RETRIES - r ≤ k →
      r ≤ SMTP_CONFIG.MAX_RETRIES →
      1 ≤ countAttempts (performSMTPCheck session email mx r).2 ∧
      countAttempts (performSMTPCheck session email mx r).2 ≤
        SMTP_CONFIG.MAX_RETRIES + 1 - r := by
  intro k
  induction k with
  | zero =>
    intro r hk hr
    have hnlt : ¬ r < SMTP_CONFIG.MAX_RETRIES := by omega
    rw [performSMTPCheck]
    cases session r with
    | thrown msg lat =>
      simp [hnlt, countAttempts]
      omega
    | completed g e m rcpt lat =>
      dsimp only
      split_ifs <;> simp_all [countAttempts] <;> omega
  | succ n ih =>
    intro r hk hr
    rw [performSMTPCheck]
    cases session r with
    | thrown msg lat =>
      dsimp only
      split_ifs with hcond
      · have hrec := ih (r + 1) (by omega) (by omega)
        simp only [countAttempts]
        omega
      · simp [countAttempts]
        omega
    | completed g e m rcpt lat =>
      dsimp only
      split_ifs with h1 h2 h3
      · simp [countAttempts]; omega
      · simp [countAttempts]; omega
      · have hrec := ih (r + 1) (by omega) (by omega)
        simp only [countAttempts]
        omega
      · simp [countAttempts]; omega

/-- C10: `performSMTPCheck` terminates (it is a total function of its
session oracle), and a call starting at `retryCount = 0` makes at least one
and at most `MAX_RETRIES + 1` connection attempts — 2 under the default
configuration. -/
theorem performSMTPCheck_attempts_bounded (session : Nat → SessionOutcome)
    (email mx : String) :
    1 ≤ countAttempts (performSMTPCheck session email mx 0).2 ∧
    countAttempts (performSMTPCheck session email mx 0).2 ≤
      SMTP_CONFIG.MAX_RETRIES + 1 ∧
    SMTP_CONFIG.MAX_RETRIES + 1 = 2 := by
  have h := countAttempts_performSMTPCheck session email mx
    SMTP_CONFIG.MAX_RETRIES 0 (by omega) (by omega)
  exact ⟨h.1, by omega, rfl⟩

/-! ### C7 — the heuristic score and its status thresholds -/

set_option maxHeartbeats 3000000 in
/-- C7: `calculateSMTPScore` equals the spec's additive formula (clamped to
`[0, 100]`), and the derived status is `valid` iff the score is ≥ 90,
`risky` iff it is in `[60, 90)`, `unknown` iff in `[30, 60)`, and
`invalid` iff below 30. -/
theorem smtp_score_formula_thresholds (mxRecords : List MXRecord)
    (hasSPF hasDMARC domainExists isDisposable isRole isCatchAll : Bool) :
    calculateSMTPScore mxRecords hasSPF hasDMARC domainExists isDisposable
        isRole isCatchAll =
      scoreSpecFormula mxRecords hasSPF hasDMARC domainExists isDisposable
        isRole isCatchAll ∧
    (∀ s : Int,
      (statusFromScore s = .valid ↔ 90 ≤ s) ∧
      (statusFromScore s = .risky ↔ 60 ≤ s ∧ s < 90) ∧
      (statusFromScore s = .unknown ↔ 30 ≤ s ∧ s < 60) ∧
      (statusFromScore s = .invalid ↔ s < 30)) := by
  constructor
  · cases mxRecords with
    | nil =>
      simp only [calculateSMTPScore, scoreSpecFormula]
      split_ifs <;> omega
    | cons r0 rest =>
      simp only [calculateSMTPScore, scoreSpecFormula, List.length_cons]
      split_ifs <;> omega
  · intro s
    unfold statusFromScore
    refine ⟨?_, ?_, ?_, ?_⟩ <;> split_ifs <;> simp <;> omega

/-! ### C9 — one result per address, failures captured per address -/

theorem verifyEmailIx_email (email : String) (env : VerifyEnvIx) (lim : Bool) :
    (verifyEmailIx email env lim).1.email = email := by
  by_cases hs : validateEmailSyntax email
  · cases hmx : getMXRecords env.mxResponse with
    | nil => simp [verifyEmailIx, hs, hmx]
    | cons mx0 rest =>
      cases hp : env.probe with
      | error msg => simp [verifyEmailIx, hs, hmx, hp]
      | ok details =>
        simp [verifyEmailIx, hs, hmx, hp,
          apply_ite (fun p : EmailVerificationResult × List NetEvent => p.1.email)]
  · simp [verifyEmailIx, hs]

theorem processEmails_eq_map (envOf : String → VerifyEnvIx) :
    ∀ (n : Nat) (emails : List String), emails.length ≤ n →
      processEmails emails envOf =
        emails.map (fun e => (verifyEmailIx e (envOf e) true).1) := by
  intro n
  induction n with
  | zero =>
    intro emails hlen
    have he : emails = [] := by
      cases emails with
      | nil => rfl
      | cons a l => simp at hlen
    rw [processEmails]
    simp [he]
  | succ n ih =>
    intro emails hlen
    by_cases he : emails = []
    · rw [processEmails]
      simp [he]
    · rw [processEmails, dif_neg he]
      have hlt : (emails.drop SMTP_CONFIG.BATCH_SIZE).length ≤ n := by
        have hb : SMTP_CONFIG.BATCH_SIZE = 50 := rfl
        have hpos : 0 < emails.length := List.length_pos.mpr he
        simp only [List.length_drop]
        omega
      rw [ih _ hlt, ← List.map_append, List.take_append_drop]

/-- C9: the batch produces exactly one result per input address, in order,
each carrying its originating address; and `verifyEmail` never propagates a
probe fault — a rejected `performSMTPCheck` promise is captured in that
address's result as a `Verification error:` message. -/
theorem batch_one_result_per_address (emails : List String)
    (envOf : String → VerifyEnvIx) :
    (processEmails emails envOf).map (fun r => r.email) = emails ∧
    (∀ (email : String) (env : VerifyEnvIx) (msg : String),
      env.probe = Except.error msg →
      validateEmailSyntax email = true →
      getMXRecords env.mxResponse ≠ [] →
      (verifyEmailIx email env true).1.error_message =
        some ("Verification error: " ++ msg)) := by
  constructor
  · rw [processEmails_eq_map envOf emails.length emails (le_refl _), List.map_map]
    have hcong : ∀ e ∈ emails,
        ((fun r : EmailVerificationResult => r.email) ∘
          (fun e => (verifyEmailIx e (envOf e) true).1)) e = e :=
      fun e _ => verifyEmailIx_email e (envOf e) true
    rw [List.map_congr_left hcong]
    exact List.map_id' emails
  · intro email env msg hp hsyn hmx
    cases hmxr : getMXRecords env.mxResponse with
    | nil => exact absurd hmxr hmx
    | cons mx0 rest => simp [verifyEmailIx, hsyn, hmxr, hp]

/-- Witness for C9 at a concrete one-address batch whose probe promise
rejects. -/
theorem batch_one_result_per_address_witness :
    (processEmails ["a@b.com"] (fun _ => wEnvThrow)).map (fun r => r.email) =
      ["a@b.com"] ∧
    (verifyEmailIx "a@b.com" wEnvThrow true).1.error_message =
      some ("Verification error: " ++ "boom") :=
  ⟨(batch_one_result_per_address ["a@b.com"] (fun _ => wEnvThrow)).1,
   (batch_one_result_per_address ["a@b.com"] (fun _ => wEnvThrow)).2
     "a@b.com" wEnvThrow "boom" rfl (by decide) (by decide)⟩
